import Mathlib

/-!
# Verification of the Demons Souls armour-set calculator

Shallow embedding of `src/main.py`.

Conventions:
* Python `int` is modelled as `Int`; Python `float` arithmetic is modelled as
  exact real arithmetic (`ℝ`), with the float power operator `**` modelled by
  `Real.rpow` (which agrees with CPython on the cases arising here, in
  particular `0.0 ** 0.0 = 1.0` and `0.0 ** y = 0.0` for `y > 0`).
* Exact rational values produced by integer `/` (true division) are modelled
  in `ℚ` and cast into `ℝ` where they feed the float pipeline.
* A Python statement that can raise is modelled in `Except String`;
  the error string records the exception that CPython would raise
  (`min()` of an empty sequence raises `ValueError`, float division by
  zero raises `ZeroDivisionError`).
* The in-place mutation `armour.weighted_total = ...` is modelled by pairing
  the unchanged record with the assigned score (`ScoredArmourSet`).
* Names follow the source: `Armour`, `ArmourSet`, `head`, `torso`, `arms`,
  `legs`, `make_armourset_list`, `get_geometric_mean`, `normalise`,
  `write_to_csv`.
-/

/-- The `Armour` dataclass: a name, five integer resistance attributes and a
derived `total` field set by `__post_init__`. -/
structure Armour where
  name : String
  physical : Int
  fire : Int
  bleed : Int
  poison : Int
  plague : Int
  total : Int
deriving DecidableEq

/-- Constructing an `Armour` the way the dataclass does: `__post_init__`
sets `total` to the sum of the five attribute fields. -/
def Armour.make (name : String) (physical fire bleed poison plague : Int) : Armour :=
  ⟨name, physical, fire, bleed, poison, plague,
    physical + fire + bleed + poison + plague⟩

/-- The compiled-in `head` catalog. -/
def head : List Armour :=
  [Armour.make "Gold Mask" 2 8 16 16 16,
   Armour.make "Three-Conered Hat" 10 5 6 6 24,
   Armour.make "Imperial Spy Hood" 12 10 8 16 0,
   Armour.make "Assassin\x27s Mask" 10 7 6 24 0]

/-- The compiled-in `torso` catalog. -/
def torso : List Armour :=
  [Armour.make "Old Ragged Robes" 26 13 15 15 62,
   Armour.make "Black Leather Garb" 25 17 15 62 0,
   Armour.make "Imperial Spy Clothes" 26 18 24 46 0]

/-- The compiled-in `arms` catalog. -/
def arms : List Armour :=
  [Armour.make "Old Ragged Gloves" 16 8 9 9 37,
   Armour.make "Black Gloves" 15 10 9 37 0,
   Armour.make "Imperial Spy Gloves" 15 14 14 32 0]

/-- The compiled-in `legs` catalog. -/
def legs : List Armour :=
  [Armour.make "Old Ragged Boots" 16 8 9 9 37,
   Armour.make "Black Boots" 15 10 9 37 0,
   Armour.make "Imperial Spy Leggings" 15 14 14 32 0]

/-- The `ArmourSet` dataclass before the normalisation pass: the `Armour`
fields plus the `parts` list.  (`weighted_total` is declared with
`init=False` and is not assigned until the scoring loop; see
`ScoredArmourSet`.) -/
structure ArmourSet where
  name : String
  physical : Int
  fire : Int
  bleed : Int
  poison : Int
  plague : Int
  total : Int
  parts : List Armour
deriving DecidableEq

/-- The body of the generation loop of `make_armourset_list` for one tuple
`(h, t, a, l)` of the Cartesian product: composite name joined by `" + "`,
element-wise attribute sums, `total` set by `__post_init__` to the sum of the
five summed attributes, and `parts` retaining the four source items. -/
def mkArmourSet (h t a l : Armour) : ArmourSet :=
  ⟨h.name ++ " + " ++ t.name ++ " + " ++ a.name ++ " + " ++ l.name,
   h.physical + t.physical + a.physical + l.physical,
   h.fire + t.fire + a.fire + l.fire,
   h.bleed + t.bleed + a.bleed + l.bleed,
   h.poison + t.poison + a.poison + l.poison,
   h.plague + t.plague + a.plague + l.plague,
   (h.physical + t.physical + a.physical + l.physical) +
     (h.fire + t.fire + a.fire + l.fire) +
     (h.bleed + t.bleed + a.bleed + l.bleed) +
     (h.poison + t.poison + a.poison + l.poison) +
     (h.plague + t.plague + a.plague + l.plague),
   [h, t, a, l]⟩

/-- The generation phase of `make_armourset_list`:
`for combo in product(head, torso, arms, legs)` appending one `ArmourSet`
per tuple.  `itertools.product` iterates the last argument fastest, which is
exactly this nest of binds. -/
def make_armourset_base (H T A L : List Armour) : List ArmourSet :=
  H.flatMap fun h => T.flatMap fun t => A.flatMap fun a => L.map fun l => mkArmourSet h t a l

/-- The nested helper `normalise` of `get_geometric_mean`: returns `0.0`
when `max_val == min_val`, otherwise the exact value of the float division
`(value - min_val) / (max_val - min_val)`. -/
def normalise (value min_val max_val : Int) : ℚ :=
  if max_val = min_val then 0
  else ((value - min_val : Int) : ℚ) / ((max_val - min_val : Int) : ℚ)

/-- The weighted-geometric-mean expression of `get_geometric_mean`:
`(norm_poison ** poison_weight * norm_plague ** plague_weight) ** (1 / total_weight)`
with `total_weight = poison_weight + plague_weight`, float powers modelled by
`Real.rpow`. -/
noncomputable def geo_mean (norm_poison norm_plague poison_weight plague_weight : ℝ) : ℝ :=
  (norm_poison ^ poison_weight * norm_plague ^ plague_weight) ^
    (1 / (poison_weight + plague_weight))

/-- `get_geometric_mean`: normalises the poison, plague and total
against the given extrema, then returns
`0.5 * norm_total + 0.5 * weighted_score`.  The division `1 / total_weight`
raises `ZeroDivisionError` in CPython when `total_weight` is zero, modelled
by the `Except.error` branch; the function performs no other validation of
its weights. -/
noncomputable def get_geometric_mean (armour : ArmourSet)
    (min_poison max_poison min_plague max_plague min_total max_total : Int)
    (poison_weight plague_weight : ℝ) : Except String ℝ :=
  let norm_poison : ℝ := (normalise armour.poison min_poison max_poison : ℚ)
  let norm_plague : ℝ := (normalise armour.plague min_plague max_plague : ℚ)
  let norm_total : ℝ := (normalise armour.total min_total max_total : ℚ)
  let total_weight : ℝ := poison_weight + plague_weight
  if total_weight = 0 then Except.error "ZeroDivisionError: float division by zero"
  else Except.ok
    (0.5 * norm_total + 0.5 * geo_mean norm_poison norm_plague poison_weight plague_weight)

/-- `min(f a for a in armours)` over the non-empty list `a :: rest`. -/
def listMinBy (f : ArmourSet → Int) (a : ArmourSet) (rest : List ArmourSet) : Int :=
  rest.foldl (fun m s => min m (f s)) (f a)

/-- `max(f a for a in armours)` over the non-empty list `a :: rest`. -/
def listMaxBy (f : ArmourSet → Int) (a : ArmourSet) (rest : List ArmourSet) : Int :=
  rest.foldl (fun m s => max m (f s)) (f a)

/-- An `ArmourSet` after the normalisation pass has assigned its
`weighted_total` (the pass mutates only that field, so the record is the
untouched `ArmourSet` plus the assigned score). -/
structure ScoredArmourSet where
  set : ArmourSet
  weighted_total : ℝ

/-- The scoring loop `for armour in armours: armour.weighted_total = ...`:
each iteration may raise (propagating out of the loop), otherwise the list of
updated records results. -/
def assign_scores {ε α β : Type} (f : α → Except ε β) : List α → Except ε (List β)
  | [] => Except.ok []
  | a :: rest =>
    match f a with
    | Except.error e => Except.error e
    | Except.ok b =>
      match assign_scores f rest with
      | Except.error e => Except.error e
      | Except.ok bs => Except.ok (b :: bs)

/-- The normalisation pass of `make_armourset_list`: the six `min`/`max`
calls raise `ValueError` on an empty candidate list; otherwise every
candidate is scored by `get_geometric_mean` with the default weights. -/
noncomputable def score_list : List ArmourSet → Except String (List ScoredArmourSet)
  | [] => Except.error "ValueError: min() arg is an empty sequence"
  | a :: rest =>
    assign_scores (fun s =>
      Except.map (fun w => ScoredArmourSet.mk s w)
        (get_geometric_mean s
          (listMinBy ArmourSet.poison a rest) (listMaxBy ArmourSet.poison a rest)
          (listMinBy ArmourSet.plague a rest) (listMaxBy ArmourSet.plague a rest)
          (listMinBy ArmourSet.total a rest) (listMaxBy ArmourSet.total a rest)
          1 1))
      (a :: rest)

/-- `make_armourset_list`, generalised over the four catalogs it reads:
generation followed by the normalisation pass. -/
noncomputable def make_armourset_list (H T A L : List Armour) :
    Except String (List ScoredArmourSet) :=
  score_list (make_armourset_base H T A L)

/-- The value `get_geometric_mean` returns for a candidate under the default
weights (used to state what the pass assigns). -/
noncomputable def score_value (s : ArmourSet)
    (min_poison max_poison min_plague max_plague min_total max_total : Int) : ℝ :=
  0.5 * ((normalise s.total min_total max_total : ℚ) : ℝ) +
    0.5 * geo_mean ((normalise s.poison min_poison max_poison : ℚ) : ℝ)
      ((normalise s.plague min_plague max_plague : ℚ) : ℝ) 1 1

/-- A cell value of the output table. -/
inductive CsvValue where
  | str : String → CsvValue
  | int : Int → CsvValue
  | real : ℝ → CsvValue
  | armourList : List Armour → CsvValue

/-- Metadata of one dataclass field as seen by `fields(ArmourSet)`:
its name, its `repr` flag, and the `getattr` accessor. -/
structure FieldSpec where
  fname : String
  frepr : Bool
  getv : ScoredArmourSet → CsvValue

/-- `fields(ArmourSet)` in dataclass order: the inherited `Armour` fields,
then `parts` (declared with `repr=False`) and `weighted_total`. -/
def armourSetFields : List FieldSpec :=
  [⟨"name", true, fun s => CsvValue.str s.set.name⟩,
   ⟨"physical", true, fun s => CsvValue.int s.set.physical⟩,
   ⟨"fire", true, fun s => CsvValue.int s.set.fire⟩,
   ⟨"bleed", true, fun s => CsvValue.int s.set.bleed⟩,
   ⟨"poison", true, fun s => CsvValue.int s.set.poison⟩,
   ⟨"plague", true, fun s => CsvValue.int s.set.plague⟩,
   ⟨"total", true, fun s => CsvValue.int s.set.total⟩,
   ⟨"parts", false, fun s => CsvValue.armourList s.set.parts⟩,
   ⟨"weighted_total", true, fun s => CsvValue.real s.weighted_total⟩]

/-- `write_to_csv` as the table it emits: `field_names` is every field of
`ArmourSet` whose `repr` flag is set, the header row lists those names, and
each armour produces one row of `getattr` values in the same field order. -/
def write_to_csv (armours : List ScoredArmourSet) : List (List CsvValue) :=
  let outFields := armourSetFields.filter (fun f => f.frepr)
  (outFields.map fun f => CsvValue.str f.fname) ::
    armours.map fun a => outFields.map fun f => f.getv a

/-! ## Helper lemmas -/

theorem length_flatMap_const {α β : Type} (l : List α) (f : α → List β) (n : ℕ)
    (hf : ∀ a, (f a).length = n) : (l.flatMap f).length = l.length * n := by
  induction l with
  | nil => simp
  | cons a as ih =>
    rw [List.flatMap_cons, List.length_append, hf, ih, List.length_cons, Nat.succ_mul]
    omega

theorem getElem?_flatMap_const {α β : Type} (l : List α) (f : α → List β) (n : ℕ)
    (hf : ∀ a, (f a).length = n) :
    ∀ (i r : ℕ) (hi : i < l.length), r < n →
      (l.flatMap f)[i * n + r]? = (f (l.get ⟨i, hi⟩))[r]? := by
  induction l with
  | nil => intro i r hi _; exact absurd hi (Nat.not_lt_zero i)
  | cons a as ih =>
    intro i r hi hr
    cases i with
    | zero =>
      rw [List.flatMap_cons, Nat.zero_mul, Nat.zero_add]
      exact List.getElem?_append_left (by rw [hf a]; exact hr)
    | succ i =>
      have hlen : (f a).length ≤ (i + 1) * n + r := by
        rw [hf a, Nat.succ_mul]; omega
      rw [List.flatMap_cons, List.getElem?_append_right hlen]
      have hsub : (i + 1) * n + r - (f a).length = i * n + r := by
        rw [hf a, Nat.succ_mul]; omega
      rw [hsub]
      exact ih i r (Nat.lt_of_succ_lt_succ hi) hr

theorem mul_add_lt_of_lt {a b c d : ℕ} (h1 : a < b) (h2 : c < d) : a * d + c < b * d := by
  have h := Nat.mul_le_mul_right d h1
  rw [Nat.succ_mul] at h
  omega

theorem foldl_min_le_init (f : ArmourSet → Int) (l : List ArmourSet) :
    ∀ i : Int, l.foldl (fun m s => min m (f s)) i ≤ i := by
  induction l with
  | nil => intro i; simp
  | cons a as ih =>
    intro i
    rw [List.foldl_cons]
    exact le_trans (ih (min i (f a))) (min_le_left _ _)

theorem foldl_min_le_mem (f : ArmourSet → Int) (l : List ArmourSet) :
    ∀ (i : Int) (s : ArmourSet), s ∈ l → l.foldl (fun m s => min m (f s)) i ≤ f s := by
  induction l with
  | nil => intro i s hs; cases hs
  | cons a as ih =>
    intro i s hs
    rw [List.foldl_cons]
    rcases List.mem_cons.1 hs with h | h
    · subst h
      exact le_trans (foldl_min_le_init f as _) (min_le_right _ _)
    · exact ih _ s h

theorem init_le_foldl_max (f : ArmourSet → Int) (l : List ArmourSet) :
    ∀ i : Int, i ≤ l.foldl (fun m s => max m (f s)) i := by
  induction l with
  | nil => intro i; simp
  | cons a as ih =>
    intro i
    rw [List.foldl_cons]
    exact le_trans (le_max_left _ _) (ih (max i (f a)))

theorem mem_le_foldl_max (f : ArmourSet → Int) (l : List ArmourSet) :
    ∀ (i : Int) (s : ArmourSet), s ∈ l → f s ≤ l.foldl (fun m s => max m (f s)) i := by
  induction l with
  | nil => intro i s hs; cases hs
  | cons a as ih =>
    intro i s hs
    rw [List.foldl_cons]
    rcases List.mem_cons.1 hs with h | h
    · subst h
      exact le_trans (le_max_right _ _) (init_le_foldl_max f as _)
    · exact ih _ s h

theorem listMinBy_le (f : ArmourSet → Int) (a : ArmourSet) (rest : List ArmourSet)
    {s : ArmourSet} (hs : s ∈ a :: rest) : listMinBy f a rest ≤ f s := by
  rcases List.mem_cons.1 hs with h | h
  · subst h
    exact foldl_min_le_init f rest (f s)
  · exact foldl_min_le_mem f rest (f a) s h

theorem le_listMaxBy (f : ArmourSet → Int) (a : ArmourSet) (rest : List ArmourSet)
    {s : ArmourSet} (hs : s ∈ a :: rest) : f s ≤ listMaxBy f a rest := by
  rcases List.mem_cons.1 hs with h | h
  · subst h
    exact init_le_foldl_max f rest (f s)
  · exact mem_le_foldl_max f rest (f a) s h

theorem normalise_mem_unitInterval {v mn mx : Int} (h1 : mn ≤ v) (h2 : v ≤ mx) :
    0 ≤ normalise v mn mx ∧ normalise v mn mx ≤ 1 := by
  unfold normalise
  split
  · exact ⟨le_refl 0, zero_le_one⟩
  · rename_i hne
    have hpos : (0:ℚ) < ((mx - mn : Int) : ℚ) := by
      have : (0:Int) < mx - mn := by omega
      exact_mod_cast this
    constructor
    · apply div_nonneg _ (le_of_lt hpos)
      have : (0:Int) ≤ v - mn := by omega
      exact_mod_cast this
    · rw [div_le_one hpos]
      have : v - mn ≤ mx - mn := by omega
      exact_mod_cast this

theorem assign_scores_ok {ε α β : Type} (f : α → Except ε β) (g : α → β) :
    ∀ l : List α, (∀ a ∈ l, f a = Except.ok (g a)) →
      assign_scores f l = Except.ok (l.map g) := by
  intro l
  induction l with
  | nil => intro _; rfl
  | cons a as ih =>
    intro h
    have ha := h a (List.mem_cons_self a as)
    have hrest := ih (fun x hx => h x (List.mem_cons_of_mem a hx))
    simp [assign_scores, ha, hrest]

theorem get_geometric_mean_ok (s : ArmourSet)
    (mnP mxP mnPl mxPl mnT mxT : Int) (wp wq : ℝ) (hw : wp + wq ≠ 0) :
    get_geometric_mean s mnP mxP mnPl mxPl mnT mxT wp wq =
      Except.ok (0.5 * ((normalise s.total mnT mxT : ℚ) : ℝ) +
        0.5 * geo_mean ((normalise s.poison mnP mxP : ℚ) : ℝ)
          ((normalise s.plague mnPl mxPl : ℚ) : ℝ) wp wq) := by
  simp only [get_geometric_mean]
  rw [if_neg hw]

theorem get_geometric_mean_default (s : ArmourSet)
    (mnP mxP mnPl mxPl mnT mxT : Int) :
    get_geometric_mean s mnP mxP mnPl mxPl mnT mxT 1 1 =
      Except.ok (score_value s mnP mxP mnPl mxPl mnT mxT) :=
  get_geometric_mean_ok s mnP mxP mnPl mxPl mnT mxT 1 1 (by norm_num)

theorem make_armourset_list_ok (H T A L : List Armour) (a : ArmourSet)
    (rest : List ArmourSet) (hbase : make_armourset_base H T A L = a :: rest) :
    make_armourset_list H T A L =
      Except.ok ((a :: rest).map fun s => ScoredArmourSet.mk s
        (score_value s
          (listMinBy ArmourSet.poison a rest) (listMaxBy ArmourSet.poison a rest)
          (listMinBy ArmourSet.plague a rest) (listMaxBy ArmourSet.plague a rest)
          (listMinBy ArmourSet.total a rest) (listMaxBy ArmourSet.total a rest))) := by
  unfold make_armourset_list
  rw [hbase]
  unfold score_list
  apply assign_scores_ok
  intro s _
  rw [get_geometric_mean_default]
  rfl

/-! ## Claims -/

/-- C1 counterexample: with the compiled-in catalogs (4, 3, 3 and 3 items)
the generation phase produces 108 candidates, not the 36 the claim asserts. -/
theorem make_armourset_list_count_not_36 :
    (make_armourset_base head torso arms legs).length = 108 ∧
    ¬ (make_armourset_base head torso arms legs).length = 36 := by
  constructor <;> decide

/-- C1 (amended): for all four catalogs, the list produced by the generation
phase of `make_armourset_list` contains exactly
`|head| * |torso| * |arms| * |legs|` candidates, and with the compiled-in
catalogs `make_armourset_list` returns a list of exactly 108 candidates
(`4 * 3 * 3 * 3 = 108`, not 36 as claimed). -/
theorem make_armourset_list_count :
    (∀ H T A L : List Armour, (make_armourset_base H T A L).length =
      H.length * T.length * A.length * L.length) ∧
    ∃ l, make_armourset_list head torso arms legs = Except.ok l ∧ l.length = 108 := by
  constructor
  · intro H T A L
    have hg3 : ∀ h t a : Armour,
        (L.map fun l => mkArmourSet h t a l).length = L.length :=
      fun _ _ _ => List.length_map _ _
    have hg2 : ∀ h t : Armour,
        (A.flatMap fun a => L.map fun l => mkArmourSet h t a l).length =
          A.length * L.length :=
      fun h t => length_flatMap_const _ _ _ (hg3 h t)
    have hg1 : ∀ h : Armour,
        (T.flatMap fun t => A.flatMap fun a =>
          L.map fun l => mkArmourSet h t a l).length =
          T.length * (A.length * L.length) :=
      fun h => length_flatMap_const _ _ _ (hg2 h)
    calc (make_armourset_base H T A L).length
        = H.length * (T.length * (A.length * L.length)) :=
          length_flatMap_const _ _ _ hg1
      _ = H.length * T.length * A.length * L.length := by ring
  · cases hb : make_armourset_base head torso arms legs with
    | nil => exact absurd (congrArg List.length hb) (by decide)
    | cons a rest =>
      refine ⟨_, make_armourset_list_ok head torso arms legs a rest hb, ?_⟩
      rw [List.length_map, ← hb]
      decide

/-- C2: every candidate produced by the generation phase has exactly four
constituent parts; each of its five summed attributes equals the sum of that
attribute across its parts; and its `total` field equals the sum of its own
five attributes. -/
theorem make_armourset_sums (H T A L : List Armour) (s : ArmourSet)
    (hs : s ∈ make_armourset_base H T A L) :
    s.parts.length = 4 ∧
    s.physical = (s.parts.map Armour.physical).sum ∧
    s.fire = (s.parts.map Armour.fire).sum ∧
    s.bleed = (s.parts.map Armour.bleed).sum ∧
    s.poison = (s.parts.map Armour.poison).sum ∧
    s.plague = (s.parts.map Armour.plague).sum ∧
    s.total = s.physical + s.fire + s.bleed + s.poison + s.plague := by
  unfold make_armourset_base at hs
  rw [List.mem_flatMap] at hs
  obtain ⟨h, _, hs⟩ := hs
  rw [List.mem_flatMap] at hs
  obtain ⟨t, _, hs⟩ := hs
  rw [List.mem_flatMap] at hs
  obtain ⟨a, _, hs⟩ := hs
  rw [List.mem_map] at hs
  obtain ⟨l, _, hs⟩ := hs
  subst hs
  refine ⟨rfl, ?_, ?_, ?_, ?_, ?_, ?_⟩ <;> simp [mkArmourSet] <;> ring

/-- C2 witness: a concrete candidate of a concrete product satisfies the sum
invariants. -/
theorem make_armourset_sums_witness :
    mkArmourSet (Armour.make "H" 1 2 3 4 5) (Armour.make "T" 10 20 30 40 50)
        (Armour.make "A" 6 7 8 9 10) (Armour.make "L" 11 12 13 14 15) ∈
      make_armourset_base [Armour.make "H" 1 2 3 4 5] [Armour.make "T" 10 20 30 40 50]
        [Armour.make "A" 6 7 8 9 10] [Armour.make "L" 11 12 13 14 15] ∧
    (mkArmourSet (Armour.make "H" 1 2 3 4 5) (Armour.make "T" 10 20 30 40 50)
        (Armour.make "A" 6 7 8 9 10) (Armour.make "L" 11 12 13 14 15)).parts.length = 4 := by
  refine ⟨by decide, ?_⟩
  have h := make_armourset_sums
    [Armour.make "H" 1 2 3 4 5] [Armour.make "T" 10 20 30 40 50]
    [Armour.make "A" 6 7 8 9 10] [Armour.make "L" 11 12 13 14 15]
    (mkArmourSet (Armour.make "H" 1 2 3 4 5) (Armour.make "T" 10 20 30 40 50)
      (Armour.make "A" 6 7 8 9 10) (Armour.make "L" 11 12 13 14 15))
    (by decide)
  exact h.1

/-- C3: `normalise` returns `0` whenever `max == min`, and for `min < max`
and `min ≤ x ≤ max` it returns `(x - min) / (max - min)`, a value in `[0, 1]`. -/
theorem normalise_spec (x mn mx : Int) :
    (mx = mn → normalise x mn mx = 0) ∧
    (mn < mx → mn ≤ x → x ≤ mx →
      normalise x mn mx = ((x : ℚ) - (mn : ℚ)) / ((mx : ℚ) - (mn : ℚ)) ∧
      0 ≤ normalise x mn mx ∧ normalise x mn mx ≤ 1) := by
  constructor
  · intro h
    simp [normalise, h]
  · intro hlt h1 h2
    have hne : ¬ (mx = mn) := by omega
    refine ⟨?_, (normalise_mem_unitInterval h1 h2).1, (normalise_mem_unitInterval h1 h2).2⟩
    unfold normalise
    rw [if_neg hne]
    push_cast
    ring

/-- C3 witness: concrete evaluations of `normalise` in the degenerate and
the regular case. -/
theorem normalise_spec_witness :
    ((5:Int) = 5 ∧ normalise 3 5 5 = 0) ∧
    ((0:Int) < 10 ∧ (0:Int) ≤ 5 ∧ (5:Int) ≤ 10 ∧
      normalise 5 0 10 = ((5:ℚ) - (0:ℚ)) / ((10:ℚ) - (0:ℚ)) ∧
      0 ≤ normalise 5 0 10 ∧ normalise 5 0 10 ≤ 1) :=
  ⟨⟨rfl, (normalise_spec 3 5 5).1 rfl⟩,
   by decide, by decide, by decide,
   ((normalise_spec 5 0 10).2 (by decide) (by decide) (by decide)).1,
   ((normalise_spec 5 0 10).2 (by decide) (by decide) (by decide)).2.1,
   ((normalise_spec 5 0 10).2 (by decide) (by decide) (by decide)).2.2⟩

/-- C6: the generation phase emits the Cartesian product in lexicographic
order — the candidate at flat index
`((i * |torso| + j) * |arms| + k) * |legs| + l` is the combination of the
`i`-th head, `j`-th torso, `k`-th arms and `l`-th legs item, so the head
catalog varies slowest and the legs catalog fastest, each catalog in its own
iteration order. -/
theorem make_armourset_base_order (H T A L : List Armour) (i j k l : ℕ)
    (hi : i < H.length) (hj : j < T.length) (hk : k < A.length) (hl : l < L.length) :
    (make_armourset_base H T A L)[((i * T.length + j) * A.length + k) * L.length + l]? =
      some (mkArmourSet (H.get ⟨i, hi⟩) (T.get ⟨j, hj⟩) (A.get ⟨k, hk⟩) (L.get ⟨l, hl⟩)) := by
  have hg3 : ∀ h t a : Armour,
      (L.map fun x => mkArmourSet h t a x).length = L.length :=
    fun _ _ _ => List.length_map _ _
  have hg2 : ∀ h t : Armour,
      (A.flatMap fun a => L.map fun x => mkArmourSet h t a x).length =
        A.length * L.length :=
    fun h t => length_flatMap_const _ _ _ (hg3 h t)
  have hg1 : ∀ h : Armour,
      (T.flatMap fun t => A.flatMap fun a =>
        L.map fun x => mkArmourSet h t a x).length =
        T.length * (A.length * L.length) :=
    fun h => length_flatMap_const _ _ _ (hg2 h)
  have hr2 : k * L.length + l < A.length * L.length := mul_add_lt_of_lt hk hl
  have hr1 : j * (A.length * L.length) + (k * L.length + l) <
      T.length * (A.length * L.length) := mul_add_lt_of_lt hj hr2
  have hidx : ((i * T.length + j) * A.length + k) * L.length + l =
      i * (T.length * (A.length * L.length)) +
        (j * (A.length * L.length) + (k * L.length + l)) := by ring
  rw [make_armourset_base, hidx]
  rw [getElem?_flatMap_const H _ _ hg1 i _ hi hr1]
  rw [getElem?_flatMap_const T _ _ (hg2 (H.get ⟨i, hi⟩)) j _ hj hr2]
  rw [getElem?_flatMap_const A _ _ (hg3 (H.get ⟨i, hi⟩) (T.get ⟨j, hj⟩)) k _ hk hl]
  rw [List.getElem?_map, List.getElem?_eq_getElem hl]
  rfl

/-- C6 witness: the candidate at flat index `((1*3+2)*3+0)*3+1 = 46` of the
compiled-in product is (second head, third torso, first arms, second legs). -/
theorem make_armourset_base_order_witness :
    1 < head.length ∧ 2 < torso.length ∧ 0 < arms.length ∧ 1 < legs.length ∧
    (make_armourset_base head torso arms legs)[((1 * torso.length + 2) * arms.length + 0) * legs.length + 1]? =
      some (mkArmourSet (head.get ⟨1, by decide⟩) (torso.get ⟨2, by decide⟩)
        (arms.get ⟨0, by decide⟩) (legs.get ⟨1, by decide⟩)) :=
  ⟨by decide, by decide, by decide, by decide,
   make_armourset_base_order head torso arms legs 1 2 0 1
     (by decide) (by decide) (by decide) (by decide)⟩

theorem geo_mean_default_mem_unitInterval {p q : ℝ}
    (hp0 : 0 ≤ p) (hp1 : p ≤ 1) (hq0 : 0 ≤ q) (hq1 : q ≤ 1) :
    0 ≤ geo_mean p q 1 1 ∧ geo_mean p q 1 1 ≤ 1 := by
  unfold geo_mean
  rw [Real.rpow_one, Real.rpow_one]
  have hpq0 : 0 ≤ p * q := mul_nonneg hp0 hq0
  have hpq1 : p * q ≤ 1 := by
    calc p * q ≤ 1 * 1 := mul_le_mul hp1 hq1 hq0 zero_le_one
      _ = 1 := one_mul 1
  exact ⟨Real.rpow_nonneg hpq0 _, Real.rpow_le_one hpq0 hpq1 (by norm_num)⟩

/-- C4: with the default weights (`poison_weight = plague_weight = 1.0`), the
`weighted_total` assigned to every candidate of `make_armourset_list` equals
`0.5 * norm_total + 0.5 * geo` (the weighted geometric mean of the normalised
poison and plague), and lies in `[0, 1]`. -/
theorem weighted_total_default_bounds (H T A L : List Armour)
    (a : ArmourSet) (rest : List ArmourSet)
    (hbase : make_armourset_base H T A L = a :: rest)
    (l : List ScoredArmourSet)
    (hok : make_armourset_list H T A L = Except.ok l)
    (x : ScoredArmourSet) (hx : x ∈ l) :
    x.weighted_total =
      0.5 * ((normalise x.set.total (listMinBy ArmourSet.total a rest)
          (listMaxBy ArmourSet.total a rest) : ℚ) : ℝ) +
        0.5 * geo_mean
          ((normalise x.set.poison (listMinBy ArmourSet.poison a rest)
            (listMaxBy ArmourSet.poison a rest) : ℚ) : ℝ)
          ((normalise x.set.plague (listMinBy ArmourSet.plague a rest)
            (listMaxBy ArmourSet.plague a rest) : ℚ) : ℝ) 1 1 ∧
    0 ≤ x.weighted_total ∧ x.weighted_total ≤ 1 := by
  rw [make_armourset_list_ok H T A L a rest hbase] at hok
  injection hok with hok
  subst hok
  rw [List.mem_map] at hx
  obtain ⟨s, hsmem, hxs⟩ := hx
  subst hxs
  dsimp only
  have hp := normalise_mem_unitInterval
    (listMinBy_le ArmourSet.poison a rest hsmem) (le_listMaxBy ArmourSet.poison a rest hsmem)
  have hq := normalise_mem_unitInterval
    (listMinBy_le ArmourSet.plague a rest hsmem) (le_listMaxBy ArmourSet.plague a rest hsmem)
  have ht := normalise_mem_unitInterval
    (listMinBy_le ArmourSet.total a rest hsmem) (le_listMaxBy ArmourSet.total a rest hsmem)
  have hpR : (0:ℝ) ≤ ((normalise s.poison (listMinBy ArmourSet.poison a rest)
      (listMaxBy ArmourSet.poison a rest) : ℚ) : ℝ) ∧
      ((normalise s.poison (listMinBy ArmourSet.poison a rest)
        (listMaxBy ArmourSet.poison a rest) : ℚ) : ℝ) ≤ 1 := by
    exact_mod_cast hp
  have hqR : (0:ℝ) ≤ ((normalise s.plague (listMinBy ArmourSet.plague a rest)
      (listMaxBy ArmourSet.plague a rest) : ℚ) : ℝ) ∧
      ((normalise s.plague (listMinBy ArmourSet.plague a rest)
        (listMaxBy ArmourSet.plague a rest) : ℚ) : ℝ) ≤ 1 := by
    exact_mod_cast hq
  have htR : (0:ℝ) ≤ ((normalise s.total (listMinBy ArmourSet.total a rest)
      (listMaxBy ArmourSet.total a rest) : ℚ) : ℝ) ∧
      ((normalise s.total (listMinBy ArmourSet.total a rest)
        (listMaxBy ArmourSet.total a rest) : ℚ) : ℝ) ≤ 1 := by
    exact_mod_cast ht
  have hgeo := geo_mean_default_mem_unitInterval hpR.1 hpR.2 hqR.1 hqR.2
  refine ⟨by rw [score_value], ?_, ?_⟩
  · unfold score_value
    have := htR.1
    have := hgeo.1
    linarith
  · unfold score_value
    have := htR.2
    have := hgeo.2
    linarith

/-- A concrete head item for singleton-catalog instantiations. -/
def c4h : Armour := Armour.make "Wh" 1 2 3 4 5

/-- A concrete torso item for singleton-catalog instantiations. -/
def c4t : Armour := Armour.make "Wt" 6 7 8 9 10

/-- A concrete arms item for singleton-catalog instantiations. -/
def c4a : Armour := Armour.make "Wa" 11 12 13 14 15

/-- A concrete legs item for singleton-catalog instantiations. -/
def c4l : Armour := Armour.make "Wl" 16 17 18 19 20

/-- The single candidate of the singleton catalogs. -/
def c4s : ArmourSet := mkArmourSet c4h c4t c4a c4l

/-- The single scored candidate of the singleton catalogs. -/
noncomputable def c4x : ScoredArmourSet :=
  ScoredArmourSet.mk c4s (score_value c4s
    (listMinBy ArmourSet.poison c4s []) (listMaxBy ArmourSet.poison c4s [])
    (listMinBy ArmourSet.plague c4s []) (listMaxBy ArmourSet.plague c4s [])
    (listMinBy ArmourSet.total c4s []) (listMaxBy ArmourSet.total c4s []))

/-- C4 witness: on concrete singleton catalogs the pipeline returns one
scored candidate whose `weighted_total` lies in `[0, 1]`. -/
theorem weighted_total_default_bounds_witness :
    make_armourset_base [c4h] [c4t] [c4a] [c4l] = c4s :: [] ∧
    make_armourset_list [c4h] [c4t] [c4a] [c4l] = Except.ok [c4x] ∧
    c4x ∈ [c4x] ∧
    0 ≤ c4x.weighted_total ∧ c4x.weighted_total ≤ 1 :=
  ⟨by decide,
   make_armourset_list_ok [c4h] [c4t] [c4a] [c4l] c4s [] (by decide),
   List.mem_cons_self c4x [],
   (weighted_total_default_bounds [c4h] [c4t] [c4a] [c4l] c4s [] (by decide) [c4x]
     (make_armourset_list_ok [c4h] [c4t] [c4a] [c4l] c4s [] (by decide)) c4x
     (List.mem_cons_self c4x [])).2.1,
   (weighted_total_default_bounds [c4h] [c4t] [c4a] [c4l] c4s [] (by decide) [c4x]
     (make_armourset_list_ok [c4h] [c4t] [c4a] [c4l] c4s [] (by decide)) c4x
     (List.mem_cons_self c4x [])).2.2⟩

/-- Head item with minimal poison but maximal plague. -/
def c5h1 : Armour := Armour.make "Za" 0 0 0 0 10

/-- Head item with maximal poison but minimal plague. -/
def c5h2 : Armour := Armour.make "Zb" 0 0 0 10 0

/-- An all-zero filler item. -/
def c5z : Armour := Armour.make "Zz" 0 0 0 0 0

/-- The first candidate of the two-candidate product. -/
def c5s1 : ArmourSet := mkArmourSet c5h1 c5z c5z c5z

/-- The second candidate of the two-candidate product. -/
def c5s2 : ArmourSet := mkArmourSet c5h2 c5z c5z c5z

/-- C5 counterexample: weights `(0, 1)` are non-negative and not both zero,
and candidate `c5s1` of a concrete two-candidate product has normalised
poison `0`; yet the weighted geometric mean computed in `get_geometric_mean`
is `(0 ** 0 * 1 ** 1) ** (1 / 1) = 1`, not `0` — Python evaluates
`0.0 ** 0.0` to `1.0`, so a zero normalised value whose weight is zero does
not force `geo` to zero. -/
theorem geo_mean_zero_propagation_counterexample :
    (0:ℝ) ≤ 0 ∧ (0:ℝ) ≤ 1 ∧ ¬((0:ℝ) = 0 ∧ (1:ℝ) = 0) ∧
    make_armourset_base [c5h1, c5h2] [c5z] [c5z] [c5z] = [c5s1, c5s2] ∧
    (normalise c5s1.poison (listMinBy ArmourSet.poison c5s1 [c5s2])
      (listMaxBy ArmourSet.poison c5s1 [c5s2]) : ℚ) = 0 ∧
    geo_mean
      ((normalise c5s1.poison (listMinBy ArmourSet.poison c5s1 [c5s2])
        (listMaxBy ArmourSet.poison c5s1 [c5s2]) : ℚ) : ℝ)
      ((normalise c5s1.plague (listMinBy ArmourSet.plague c5s1 [c5s2])
        (listMaxBy ArmourSet.plague c5s1 [c5s2]) : ℚ) : ℝ) 0 1 = 1 ∧
    geo_mean
      ((normalise c5s1.poison (listMinBy ArmourSet.poison c5s1 [c5s2])
        (listMaxBy ArmourSet.poison c5s1 [c5s2]) : ℚ) : ℝ)
      ((normalise c5s1.plague (listMinBy ArmourSet.plague c5s1 [c5s2])
        (listMaxBy ArmourSet.plague c5s1 [c5s2]) : ℚ) : ℝ) 0 1 ≠ 0 := by
  have hminp : listMinBy ArmourSet.poison c5s1 [c5s2] = 0 := by decide
  have hmaxp : listMaxBy ArmourSet.poison c5s1 [c5s2] = 10 := by decide
  have hvp : c5s1.poison = 0 := by decide
  have hminq : listMinBy ArmourSet.plague c5s1 [c5s2] = 0 := by decide
  have hmaxq : listMaxBy ArmourSet.plague c5s1 [c5s2] = 10 := by decide
  have hvq : c5s1.plague = 10 := by decide
  have hp : (normalise c5s1.poison (listMinBy ArmourSet.poison c5s1 [c5s2])
      (listMaxBy ArmourSet.poison c5s1 [c5s2]) : ℚ) = 0 := by
    rw [hminp, hmaxp, hvp]
    norm_num [normalise]
  have hq : (normalise c5s1.plague (listMinBy ArmourSet.plague c5s1 [c5s2])
      (listMaxBy ArmourSet.plague c5s1 [c5s2]) : ℚ) = 1 := by
    rw [hminq, hmaxq, hvq]
    norm_num [normalise]
  have hgeo : geo_mean
      ((normalise c5s1.poison (listMinBy ArmourSet.poison c5s1 [c5s2])
        (listMaxBy ArmourSet.poison c5s1 [c5s2]) : ℚ) : ℝ)
      ((normalise c5s1.plague (listMinBy ArmourSet.plague c5s1 [c5s2])
        (listMaxBy ArmourSet.plague c5s1 [c5s2]) : ℚ) : ℝ) 0 1 = 1 := by
    rw [hp, hq]
    push_cast
    unfold geo_mean
    rw [Real.rpow_zero, Real.rpow_one, one_mul, Real.one_rpow]
  refine ⟨le_refl 0, zero_le_one, by norm_num, by decide, hp, hgeo, ?_⟩
  rw [hgeo]
  norm_num

/-- C5 (amended): for all non-negative weights and all normalised inputs,
whenever `norm_poison` is `0` with `poison_weight` positive, or `norm_plague`
is `0` with `plague_weight` positive, the weighted geometric mean computed in
`get_geometric_mean` is `0`.  (In particular, with the default weights
`1.0`/`1.0`, a zero on either axis forces `geo = 0`.) -/
theorem geo_mean_zero_propagation (p q wp wq : ℝ) (hwp : 0 ≤ wp) (hwq : 0 ≤ wq)
    (h : (p = 0 ∧ 0 < wp) ∨ (q = 0 ∧ 0 < wq)) : geo_mean p q wp wq = 0 := by
  have hsum : 0 < wp + wq := by
    rcases h with ⟨_, h⟩ | ⟨_, h⟩ <;> linarith
  have hexp : 1 / (wp + wq) ≠ 0 := one_div_ne_zero (ne_of_gt hsum)
  unfold geo_mean
  rcases h with ⟨hp, hwp'⟩ | ⟨hq, hwq'⟩
  · subst hp
    rw [Real.zero_rpow (ne_of_gt hwp'), zero_mul, Real.zero_rpow hexp]
  · subst hq
    rw [Real.zero_rpow (ne_of_gt hwq'), mul_zero, Real.zero_rpow hexp]

/-- C5 witness: with the default weights a zero normalised poison forces the
geometric mean to zero. -/
theorem geo_mean_zero_propagation_witness :
    (0:ℝ) ≤ 1 ∧ ((0:ℝ) = 0 ∧ (0:ℝ) < 1 ∨ ((1:ℝ) = 0 ∧ (0:ℝ) < 1)) ∧
    geo_mean 0 1 1 1 = 0 :=
  ⟨zero_le_one, Or.inl ⟨rfl, zero_lt_one⟩,
   geo_mean_zero_propagation 0 1 1 1 zero_le_one zero_le_one
     (Or.inl ⟨rfl, zero_lt_one⟩)⟩

/-- C7: `write_to_csv` emits a header row listing exactly the eight
`repr`-visible fields `name, physical, fire, bleed, poison, plague, total,
weighted_total` in that order (`parts` is excluded), followed by exactly one
row per candidate, in input-list order, each row holding the `getattr`
values of that candidate in the same field order. -/
theorem write_to_csv_spec (armours : List ScoredArmourSet) :
    write_to_csv armours =
      [CsvValue.str "name", CsvValue.str "physical", CsvValue.str "fire",
       CsvValue.str "bleed", CsvValue.str "poison", CsvValue.str "plague",
       CsvValue.str "total", CsvValue.str "weighted_total"] ::
        armours.map (fun a =>
          [CsvValue.str a.set.name, CsvValue.int a.set.physical,
           CsvValue.int a.set.fire, CsvValue.int a.set.bleed,
           CsvValue.int a.set.poison, CsvValue.int a.set.plague,
           CsvValue.int a.set.total, CsvValue.real a.weighted_total]) ∧
    (write_to_csv armours).length = armours.length + 1 := by
  constructor
  · rfl
  · simp [write_to_csv]

/-- C8: `get_geometric_mean` performs no internal validation of its weights:
with both weights zero the division `1 / total_weight` is a zero-division
error, while for non-negative weights that are not both zero no error occurs
and a result is returned. -/
theorem get_geometric_mean_weight_errors (s : ArmourSet)
    (mnP mxP mnPl mxPl mnT mxT : Int) :
    get_geometric_mean s mnP mxP mnPl mxPl mnT mxT 0 0 =
      Except.error "ZeroDivisionError: float division by zero" ∧
    ∀ wp wq : ℝ, 0 ≤ wp → 0 ≤ wq → ¬(wp = 0 ∧ wq = 0) →
      ∃ r : ℝ, get_geometric_mean s mnP mxP mnPl mxPl mnT mxT wp wq =
        Except.ok r := by
  constructor
  · simp only [get_geometric_mean]
    rw [if_pos]
    norm_num
  · intro wp wq h0 h1 hne
    have hsum : wp + wq ≠ 0 := by
      intro hc
      exact hne ⟨by linarith, by linarith⟩
    exact ⟨_, get_geometric_mean_ok s mnP mxP mnPl mxPl mnT mxT wp wq hsum⟩

/-- C8 witness: at a concrete candidate and extrema, zero weights raise and
weights `(1, 0)` succeed. -/
theorem get_geometric_mean_weight_errors_witness :
    ((0:ℝ) ≤ 1 ∧ (0:ℝ) ≤ 0 ∧ ¬((1:ℝ) = 0 ∧ (0:ℝ) = 0)) ∧
    get_geometric_mean c4s 0 1 0 1 0 1 0 0 =
      Except.error "ZeroDivisionError: float division by zero" ∧
    ∃ r : ℝ, get_geometric_mean c4s 0 1 0 1 0 1 1 0 = Except.ok r :=
  ⟨⟨zero_le_one, le_refl 0, by norm_num⟩,
   (get_geometric_mean_weight_errors c4s 0 1 0 1 0 1).1,
   (get_geometric_mean_weight_errors c4s 0 1 0 1 0 1).2 1 0 zero_le_one
     (le_refl 0) (by norm_num)⟩

/-- C9 counterexample: with an empty head catalog `make_armourset_list` does
not return the empty list — the `min()` call over the empty candidate list
raises `ValueError`. -/
theorem make_armourset_list_empty_raises :
    make_armourset_list [] torso arms legs =
      Except.error "ValueError: min() arg is an empty sequence" ∧
    make_armourset_list [] torso arms legs ≠
      Except.ok ([] : List ScoredArmourSet) := by
  have h : make_armourset_list [] torso arms legs =
      Except.error "ValueError: min() arg is an empty sequence" := rfl
  refine ⟨h, ?_⟩
  intro hc
  rw [h] at hc
  exact Except.noConfusion hc

/-- C9 (amended): if any of the four catalogs is empty, the generation step
yields the empty candidate sequence, but `make_armourset_list` then raises
`ValueError` (from `min()` over the empty sequence) rather than returning the
empty list. -/
theorem make_armourset_list_empty_amended (H T A L : List Armour)
    (h : H = [] ∨ T = [] ∨ A = [] ∨ L = []) :
    make_armourset_base H T A L = [] ∧
    make_armourset_list H T A L =
      Except.error "ValueError: min() arg is an empty sequence" := by
  have hbase : make_armourset_base H T A L = [] := by
    unfold make_armourset_base
    rcases h with h | h | h | h <;> subst h <;> simp
  refine ⟨hbase, ?_⟩
  unfold make_armourset_list
  rw [hbase]
  rfl

/-- C9 witness: the empty-head-catalog instance of the amended claim. -/
theorem make_armourset_list_empty_amended_witness :
    (([] : List Armour) = [] ∨ torso = [] ∨ arms = [] ∨ legs = []) ∧
    make_armourset_base [] torso arms legs = [] ∧
    make_armourset_list [] torso arms legs =
      Except.error "ValueError: min() arg is an empty sequence" :=
  ⟨Or.inl rfl,
   (make_armourset_list_empty_amended [] torso arms legs (Or.inl rfl)).1,
   (make_armourset_list_empty_amended [] torso arms legs (Or.inl rfl)).2⟩

/-- C10: the normalisation pass writes only `weighted_total` — stripping the
assigned score from the returned list gives back exactly the
generation-phase list, so every other field (name, the five attributes,
total, parts) of every candidate is unchanged, in unchanged order; the
catalogs themselves are values the pass never rebinds. -/
theorem normalisation_pass_frame (H T A L : List Armour)
    (l : List ScoredArmourSet)
    (hok : make_armourset_list H T A L = Except.ok l) :
    l.map ScoredArmourSet.set = make_armourset_base H T A L := by
  cases hb : make_armourset_base H T A L with
  | nil =>
    unfold make_armourset_list at hok
    rw [hb] at hok
    rw [show score_list [] =
      Except.error "ValueError: min() arg is an empty sequence" from rfl] at hok
    exact Except.noConfusion hok
  | cons a rest =>
    rw [make_armourset_list_ok H T A L a rest hb] at hok
    injection hok with hok
    rw [← hok, List.map_map]
    show List.map id (a :: rest) = a :: rest
    exact List.map_id (a :: rest)

/-- C10 witness: on concrete singleton catalogs, stripping the score from
the returned list gives back the generation-phase list. -/
theorem normalisation_pass_frame_witness :
    make_armourset_list [c4h] [c4t] [c4a] [c4l] = Except.ok [c4x] ∧
    ([c4x].map ScoredArmourSet.set = make_armourset_base [c4h] [c4t] [c4a] [c4l]) :=
  ⟨make_armourset_list_ok [c4h] [c4t] [c4a] [c4l] c4s [] (by decide),
   normalisation_pass_frame [c4h] [c4t] [c4a] [c4l] [c4x]
     (make_armourset_list_ok [c4h] [c4t] [c4a] [c4l] c4s [] (by decide))⟩
